import Mathlib

/-!
Verification development for the resume ranking/scoring engine of the
A.R.T.I.S.T repository.

The embedding below translates, statement by statement, the Python code of
`src/services/resume_ranking_service.py` (class `ResumeRankingService`) and
`src/utils/scoring_utils.py` (`score_resume`).  Python strings are Lean
`String`s, Python floats are real numbers, a value that may be `None` is an
`Option`, and code that can raise is `Except PyError`.  The behaviour of the
scikit-learn calls (`TfidfVectorizer().fit_transform` on the two-document
corpus followed by `cosine_similarity`) is modelled by its documented
mathematics: tokenization with the default pattern (maximal runs of at least
two word characters, after lowercasing), raw term counts, smoothed idf
`ln((1+n)/(1+df)) + 1` with `n = 2`, l2 row normalisation, and the cosine
kernel (which l2-normalises again, mapping a zero row to itself), with a
`ValueError` when the vocabulary is empty.
-/

namespace Artist

/-- ASCII codes of the 32 characters of Python's `string.punctuation`. -/
def punctuationCodes : List Nat :=
  [33, 34, 35, 36, 37, 38, 39, 40, 41, 42, 43, 44, 45, 46, 47,
   58, 59, 60, 61, 62, 63, 64, 91, 92, 93, 94, 95, 96, 123, 124, 125, 126]

/-- Membership in Python's `string.punctuation`. -/
def pyIsPunct (c : Char) : Bool := punctuationCodes.contains c.toNat

/-- The ASCII whitespace characters recognised by Python's `str.split()`:
space, tab, newline, carriage return, vertical tab (11) and form feed (12). -/
def pyIsSpace (c : Char) : Bool :=
  c == ' ' || c == '\t' || c == '\n' || c == '\r' || c.toNat == 11 || c.toNat == 12

/-- Python's `str.lower()` (character-wise lowering; ASCII letters suffice
for every string manipulated here). -/
def pyLower (s : String) : String := ⟨s.data.map Char.toLower⟩

/-- Worker for `pySplit`: scan the characters, accumulating the current word
in reverse. -/
def splitWsAux : List Char → List Char → List (List Char)
  | [], [] => []
  | [], acc => [acc.reverse]
  | c :: cs, acc =>
    if pyIsSpace c then
      if acc.isEmpty then splitWsAux cs [] else acc.reverse :: splitWsAux cs []
    else splitWsAux cs (c :: acc)

/-- Python's `str.split()` with no argument: split on runs of whitespace,
drop empty words. -/
def pySplit (s : String) : List String := (splitWsAux s.data []).map fun l => ⟨l⟩

/-- Strip leading and trailing `string.punctuation` characters from a
character list. -/
def pyStripChars (l : List Char) : List Char :=
  ((l.dropWhile pyIsPunct).reverse.dropWhile pyIsPunct).reverse

/-- Python's `word.strip(string.punctuation)`. -/
def pyStrip (s : String) : String := ⟨pyStripChars s.data⟩

/-- Does the first list occur at the head of the second? -/
def startsWithL : List Char → List Char → Bool
  | [], _ => true
  | _ :: _, [] => false
  | a :: as, b :: bs => a == b && startsWithL as bs

/-- Does `sub` occur contiguously somewhere in the second list?  (Python's
`sub in hay` on strings.) -/
def containsSub (sub : List Char) : List Char → Bool
  | [] => sub.isEmpty
  | c :: t => startsWithL sub (c :: t) || containsSub sub t

/-- Python's substring test `sub in hay`. -/
def pyContains (hay sub : String) : Bool := containsSub sub.data hay.data

/-- Python truthiness of an optional string: `None` and `""` are falsy. -/
def pyTruthy : Option String → Bool
  | none => false
  | some s => s != ""

/-- `ResumeRankingService.extract_keywords` (lines 22-36): on falsy input
return `[]`; otherwise lowercase, split on whitespace, keep the words whose
(unstripped) length exceeds 2, and strip punctuation from each kept word. -/
def extract_keywords : Option String → List String
  | none => []
  | some text =>
    if text == "" then []
    else
      let words := pySplit (pyLower text)
      (words.filter fun word => 2 < word.length).map fun word => pyStrip word

/-- The per-instance state of `ResumeRankingService`. -/
structure ResumeRankingService where
  job_description : Option String
  keyword_list : List String

/-- `ResumeRankingService.__init__` (lines 13-20): store the job description
and precompute `extract_keywords(job_description) if job_description else []`. -/
def mkService (job_description : Option String) : ResumeRankingService :=
  { job_description := job_description
    keyword_list :=
      if pyTruthy job_description then extract_keywords job_description else [] }

/-- `ResumeRankingService.score_keyword_relevance` (lines 38-54). -/
noncomputable def score_keyword_relevance
    (svc : ResumeRankingService) (resume_text : String) : ℝ :=
  if svc.keyword_list = [] then 0
  else
    let resume_words := pySplit (pyLower resume_text)
    let match_count := resume_words.countP fun word => svc.keyword_list.contains word
    ((match_count : ℝ) / (svc.keyword_list.length : ℝ)) * 100

/-- The fixed section list of `evaluate_formatting` (line 64). -/
def sectionsList : List String := ["experience", "education", "skills", "projects"]

/-- `ResumeRankingService.evaluate_formatting` (lines 56-70): count the
sections occurring as substrings of the lowercased text, divide by 4,
multiply by 100.  (The method reads no instance state.) -/
noncomputable def evaluate_formatting (resume_text : String) : ℝ :=
  let formatting_score := sectionsList.countP fun sec => pyContains (pyLower resume_text) sec
  ((formatting_score : ℝ) / (sectionsList.length : ℝ)) * 100

/-- A word character for scikit-learn's default token pattern `\w\w+`. -/
def isWordChar (c : Char) : Bool := c.isAlphanum || c == '_'

/-- Worker collecting maximal runs of word characters. -/
def wordRunsAux : List Char → List Char → List (List Char)
  | [], [] => []
  | [], acc => [acc.reverse]
  | c :: cs, acc =>
    if isWordChar c then wordRunsAux cs (c :: acc)
    else if acc.isEmpty then wordRunsAux cs [] else acc.reverse :: wordRunsAux cs []

/-- scikit-learn `TfidfVectorizer` tokenization: lowercase, then the maximal
runs of word characters of length at least 2. -/
def sklearnTokenize (s : String) : List String :=
  ((wordRunsAux (pyLower s).data []).filter fun r => 2 ≤ r.length).map fun r => ⟨r⟩

/-- Dot product of two vectors given as lists (trailing entries ignored,
as both rows here always share the vocabulary length). -/
def dotl (u v : List ℝ) : ℝ := (List.zipWith (fun a b => a * b) u v).sum

/-- l2 row normalisation as performed by scikit-learn: a row of norm zero is
left unchanged, any other row is divided by its norm. -/
noncomputable def l2normalize (u : List ℝ) : List ℝ :=
  if dotl u u = 0 then u else u.map fun x => x / Real.sqrt (dotl u u)

/-- scikit-learn `cosine_similarity` of two rows: normalise each and take the
dot product. -/
noncomputable def cosine_similarity (u v : List ℝ) : ℝ :=
  dotl (l2normalize u) (l2normalize v)

/-- The exceptions relevant to this service: `AttributeError` (e.g. calling
`.lower()` on a non-string), scikit-learn's `ValueError` for an empty
vocabulary, and the `InvalidInputError` named by the specification (which no
code in the repository defines or raises). -/
inductive PyError where
  | attributeError
  | valueError
  | invalidInputError
deriving DecidableEq

/-- `ResumeRankingService.evaluate_content_quality` (lines 72-89): return the
neutral 50 when the stored job description is falsy, otherwise run the
two-document tf-idf pipeline and scale the cosine similarity to a
percentage.  `TfidfVectorizer.fit_transform` raises `ValueError` when the
two documents yield no token at all (empty vocabulary). -/
noncomputable def evaluate_content_quality
    (svc : ResumeRankingService) (resume_text : String) : Except PyError ℝ :=
  if pyTruthy svc.job_description = false then Except.ok 50
  else
    let jd := svc.job_description.getD ""
    let toks0 := sklearnTokenize resume_text
    let toks1 := sklearnTokenize jd
    let vocab := (toks0 ++ toks1).dedup
    if vocab = [] then Except.error PyError.valueError
    else
      let df : String → ℕ := fun t =>
        (if toks0.contains t then 1 else 0) + (if toks1.contains t then 1 else 0)
      let idf : String → ℝ := fun t => Real.log ((1 + 2) / (1 + (df t : ℝ))) + 1
      let row0 := vocab.map fun t => (toks0.count t : ℝ) * idf t
      let row1 := vocab.map fun t => (toks1.count t : ℝ) * idf t
      Except.ok (cosine_similarity (l2normalize row0) (l2normalize row1) * 100)

/-- The three per-metric scores of a `rank_resume` result. -/
structure Scores where
  keyword_relevance : ℝ
  formatting : ℝ
  content_quality : ℝ

/-- Feedback string of line 130. -/
def keywordRelevanceMsg : String :=
  "Consider including more keywords from the job description to improve relevance."

/-- Feedback string of line 133. -/
def formattingMsg : String :=
  "Improve the resume formatting by ensuring clear sections like \x27Experience\x27 and \x27Education\x27."

/-- Feedback string of line 136. -/
def contentQualityMsg : String :=
  "Work on improving the overall clarity and relevance of your resume content."

/-- Feedback string of line 139. -/
def overallMsg : String :=
  "Your resume is well-structured and relevant to the job description."

/-- `ResumeRankingService.generate_feedback` (lines 120-141); the Python dict
is modelled as an association list in insertion order. -/
noncomputable def generate_feedback (scores : Scores) : List (String × String) :=
  let feedback : List (String × String) := []
  let feedback :=
    if scores.keyword_relevance < 70 then feedback ++ [("keyword_relevance", keywordRelevanceMsg)]
    else feedback
  let feedback :=
    if scores.formatting < 80 then feedback ++ [("formatting", formattingMsg)]
    else feedback
  let feedback :=
    if scores.content_quality < 75 then feedback ++ [("content_quality", contentQualityMsg)]
    else feedback
  if feedback = [] then [("overall", overallMsg)] else feedback

/-- The dictionary returned by `rank_resume`. -/
structure RankingResult where
  overall_score : ℝ
  scores : Scores
  feedback : List (String × String)

/-- `ResumeRankingService.rank_resume` (lines 91-118): compute the three
metric scores (propagating any exception from the content-quality step),
combine them with the fixed weights 0.4/0.3/0.3, and attach feedback. -/
noncomputable def rank_resume
    (svc : ResumeRankingService) (resume_text : String) : Except PyError RankingResult :=
  match evaluate_content_quality svc resume_text with
  | Except.error e => Except.error e
  | Except.ok cq =>
    let scores : Scores :=
      { keyword_relevance := score_keyword_relevance svc resume_text
        formatting := evaluate_formatting resume_text
        content_quality := cq }
    let overall_score :=
      0.4 * scores.keyword_relevance + 0.3 * scores.formatting +
        0.3 * scores.content_quality
    Except.ok
      { overall_score := overall_score
        scores := scores
        feedback := generate_feedback scores }

/-- A dynamically typed Python value handed to `rank_resume`: `None`, a
string, or some non-string object (an integer stands in for the rest). -/
inductive PyValue where
  | pynone
  | pystr (s : String)
  | pyint (n : Int)
deriving DecidableEq

/-- Is the value a Python string? -/
def PyValue.isStr : PyValue → Bool
  | PyValue.pystr _ => true
  | _ => false

/-- `rank_resume` as invoked on a dynamically typed argument.  On a
non-string the first `resume_text.lower()` call (inside
`score_keyword_relevance` when the keyword list is non-empty, otherwise
inside `evaluate_formatting`) raises `AttributeError`: neither `None` nor an
integer has a `.lower` attribute. -/
noncomputable def rank_resume_py
    (svc : ResumeRankingService) (v : PyValue) : Except PyError RankingResult :=
  match v with
  | PyValue.pystr s => rank_resume svc s
  | _ => Except.error PyError.attributeError

/-- `score_resume` from `src/utils/scoring_utils.py` (lines 1-38), the
sequential accumulation followed by the final clamp. -/
def score_resume (resume_content : String) : Int :=
  let score : Int := 0
  let score := if pyContains resume_content "Work Experience" then score + 20 else score
  let score := if pyContains resume_content "Education" then score + 20 else score
  let score := if pyContains resume_content "Skills" then score + 20 else score
  let word_count := (pySplit resume_content).length
  let score := if 400 ≤ word_count ∧ word_count ≤ 800 then score + 20 else score - 10
  let keywords : List String := ["Python", "Machine Learning", "Team Leadership"]
  let score := keywords.foldl (fun s k => if pyContains resume_content k then s + 5 else s) score
  let score :=
    if !pyContains resume_content "Phone" || !pyContains resume_content "Email" then score - 20
    else score
  max 0 (min 100 score)

/-- The 650-word document of testable property 7 of the spec: the seven
header words followed by 643 filler words. -/
def sample650 : String :=
  ⟨"Work Experience Education Skills Python Phone Email".data ++
    (List.replicate 643 [' ', 'x']).flatten⟩

/-! ### Helper lemmas -/

theorem toNat_ofNat_valid {n : Nat} (h : n.isValidChar) : (Char.ofNat n).toNat = n := by
  rw [Char.ofNat, dif_pos h]
  rfl

theorem toLower_idem (c : Char) : Char.toLower (Char.toLower c) = Char.toLower c := by
  by_cases h : 65 ≤ c.toNat ∧ c.toNat ≤ 90
  · have h1 : Char.toLower c = Char.ofNat (c.toNat + 32) := by
      rw [Char.toLower]
      exact if_pos h
    have hv : (c.toNat + 32).isValidChar := Or.inl (by omega)
    have ht : (Char.ofNat (c.toNat + 32)).toNat = c.toNat + 32 := toNat_ofNat_valid hv
    rw [h1, Char.toLower, if_neg]
    rw [ht]
    omega
  · have h1 : Char.toLower c = c := by
      rw [Char.toLower]
      exact if_neg h
    rw [h1, h1]

theorem map_toLower_eq_self {l : List Char} (h : ∀ c ∈ l, Char.toLower c = c) :
    l.map Char.toLower = l := by
  induction l with
  | nil => rfl
  | cons a as ih =>
    simp only [List.map_cons]
    rw [h a (by simp), ih fun c hc => h c (by simp [hc])]

theorem pyLower_eq_self {t : String} (h : ∀ c ∈ t.data, Char.toLower c = c) :
    pyLower t = t := by
  show String.mk (t.data.map Char.toLower) = t
  rw [map_toLower_eq_self h]

theorem pyStripChars_eq_rdropWhile (l : List Char) :
    pyStripChars l = List.rdropWhile pyIsPunct (l.dropWhile pyIsPunct) := rfl

theorem dropWhile_pyStripChars (l : List Char) :
    (pyStripChars l).dropWhile pyIsPunct = pyStripChars l := by
  rw [pyStripChars_eq_rdropWhile]
  rcases hB : List.rdropWhile pyIsPunct (l.dropWhile pyIsPunct) with _ | ⟨b, B⟩
  · rfl
  · have hpre : List.rdropWhile pyIsPunct (l.dropWhile pyIsPunct) <+: l.dropWhile pyIsPunct :=
      List.rdropWhile_prefix _ _
    rw [hB] at hpre
    obtain ⟨t, ht⟩ := hpre
    rw [List.cons_append] at ht
    have hb : ¬ pyIsPunct b = true := by
      intro hpb
      have hself : List.dropWhile pyIsPunct (l.dropWhile pyIsPunct) = l.dropWhile pyIsPunct :=
        List.dropWhile_idempotent _ _
      rw [← ht] at hself
      rw [List.dropWhile_cons_of_pos hpb] at hself
      have hlen := congrArg List.length hself
      rw [List.length_cons] at hlen
      have hle : (List.dropWhile pyIsPunct (B ++ t)).length ≤ (B ++ t).length :=
        (List.dropWhile_sublist _).length_le
      omega
    exact List.dropWhile_cons_of_neg hb

theorem pyStripChars_idem (l : List Char) :
    pyStripChars (pyStripChars l) = pyStripChars l := by
  rw [pyStripChars_eq_rdropWhile (pyStripChars l), dropWhile_pyStripChars,
    pyStripChars_eq_rdropWhile l, List.rdropWhile_idempotent]

theorem pyStrip_idem (s : String) : pyStrip (pyStrip s) = pyStrip s := by
  show String.mk (pyStripChars (pyStripChars s.data)) = String.mk (pyStripChars s.data)
  rw [pyStripChars_idem]

theorem pyStripChars_subset {l : List Char} : ∀ c ∈ pyStripChars l, c ∈ l := by
  intro c hc
  rw [pyStripChars_eq_rdropWhile] at hc
  have h1 : List.rdropWhile pyIsPunct (l.dropWhile pyIsPunct) <+: l.dropWhile pyIsPunct :=
    List.rdropWhile_prefix _ _
  exact (List.dropWhile_sublist _).subset (h1.subset hc)

theorem splitWsAux_chars : ∀ (cs acc w : List Char), w ∈ splitWsAux cs acc →
    ∀ c ∈ w, c ∈ cs ∨ c ∈ acc := by
  intro cs
  induction cs with
  | nil =>
    intro acc w hw c hc
    cases acc with
    | nil => simp [splitWsAux] at hw
    | cons a as =>
      simp only [splitWsAux, List.mem_singleton] at hw
      subst hw
      exact Or.inr (List.mem_reverse.mp hc)
  | cons d ds ih =>
    intro acc w hw c hc
    by_cases hd : pyIsSpace d
    · by_cases hacc : acc.isEmpty
      · have hrw : splitWsAux (d :: ds) acc = splitWsAux ds [] := by
          simp [splitWsAux, hd, hacc]
        rw [hrw] at hw
        rcases ih [] w hw c hc with h | h
        · exact Or.inl (List.mem_cons_of_mem _ h)
        · simp at h
      · have hrw : splitWsAux (d :: ds) acc = acc.reverse :: splitWsAux ds [] := by
          simp [splitWsAux, hd, hacc]
        rw [hrw] at hw
        rcases List.mem_cons.mp hw with h | h
        · subst h
          exact Or.inr (List.mem_reverse.mp hc)
        · rcases ih [] w h c hc with h2 | h2
          · exact Or.inl (List.mem_cons_of_mem _ h2)
          · simp at h2
    · have hrw : splitWsAux (d :: ds) acc = splitWsAux ds (d :: acc) := by
        simp [splitWsAux, hd]
      rw [hrw] at hw
      rcases ih (d :: acc) w hw c hc with h | h
      · exact Or.inl (List.mem_cons_of_mem _ h)
      · rcases List.mem_cons.mp h with h2 | h2
        · exact Or.inl (by simp [h2])
        · exact Or.inr h2

theorem pySplit_chars {s w : String} (hw : w ∈ pySplit s) : ∀ c ∈ w.data, c ∈ s.data := by
  simp only [pySplit, List.mem_map] at hw
  obtain ⟨l, hl, rfl⟩ := hw
  intro c hc
  rcases splitWsAux_chars s.data [] l hl c hc with h | h
  · exact h
  · simp at h

theorem dotl_cons (a b : ℝ) (u v : List ℝ) : dotl (a :: u) (b :: v) = a * b + dotl u v := by
  simp [dotl]

theorem dotl_self_nonneg (u : List ℝ) : 0 ≤ dotl u u := by
  induction u with
  | nil => simp [dotl]
  | cons a v ih =>
    rw [dotl_cons]
    nlinarith [mul_self_nonneg a]

theorem dotl_map_div (u : List ℝ) (c : ℝ) :
    dotl (u.map fun x => x / c) (u.map fun x => x / c) = dotl u u / (c * c) := by
  induction u with
  | nil => simp [dotl]
  | cons a v ih =>
    simp only [List.map_cons]
    rw [dotl_cons, dotl_cons, ih, div_mul_div_comm, div_add_div_same]

theorem dotl_self_normalized {u : List ℝ} (h : dotl u u ≠ 0) :
    dotl (l2normalize u) (l2normalize u) = 1 := by
  unfold l2normalize
  rw [if_neg h, dotl_map_div, Real.mul_self_sqrt (dotl_self_nonneg u), div_self h]

theorem dotl_self_pos {u : List ℝ} (hne : u ≠ []) (h : ∀ x ∈ u, 0 < x) : 0 < dotl u u := by
  cases u with
  | nil => exact absurd rfl hne
  | cons a v =>
    rw [dotl_cons]
    have ha := h a (List.mem_cons_self a v)
    have hv := dotl_self_nonneg v
    nlinarith

theorem cosine_self_one {u : List ℝ} (h : 0 < dotl u u) :
    cosine_similarity (l2normalize u) (l2normalize u) = 1 := by
  unfold cosine_similarity
  exact dotl_self_normalized (by rw [dotl_self_normalized h.ne.symm]; norm_num)

theorem dotl_zero_left {u : List ℝ} (h : ∀ x ∈ u, x = 0) : ∀ v, dotl u v = 0 := by
  induction u with
  | nil => intro v; simp [dotl]
  | cons a u ih =>
    intro v
    cases v with
    | nil => simp [dotl]
    | cons b w =>
      rw [dotl_cons, h a (List.mem_cons_self a u),
        ih (fun x hx => h x (List.mem_cons_of_mem a hx)) w]
      ring

theorem dotl_comm (u : List ℝ) : ∀ v, dotl u v = dotl v u := by
  induction u with
  | nil => intro v; cases v <;> simp [dotl]
  | cons a u ih =>
    intro v
    cases v with
    | nil => simp [dotl]
    | cons b w => rw [dotl_cons, dotl_cons, ih w, mul_comm]

theorem l2normalize_zero {u : List ℝ} (h : ∀ x ∈ u, x = 0) : l2normalize u = u := by
  unfold l2normalize
  rw [if_pos (dotl_zero_left h u)]

/-! ### Claims -/

/-- C4 counterexample: on the input `"a!!"` the word has (unstripped) length
3, so it survives the filter and is then stripped down to `"a"`, a returned
token of length 1 ≤ 2 — refuting the claim that every returned token has
punctuation-stripped length strictly greater than 2. -/
theorem C4_counterexample :
    extract_keywords (some "a!!") = ["a"] ∧ ¬ 2 < String.length "a" := by
  constructor
  · decide
  · decide

/-- C4 (amended): every token returned by `extract_keywords` is lowercase
and punctuation-stripped, and arises as the strip of a whitespace-split word
of the lowercased text whose PRE-strip length exceeds 2 (the source applies
the length filter before stripping, so a returned token itself may end up
with length ≤ 2); empty or absent input yields the empty sequence. -/
theorem C4_extract_keywords_amended :
    extract_keywords none = [] ∧ extract_keywords (some "") = [] ∧
    ∀ (text t : String), t ∈ extract_keywords (some text) →
      pyStrip t = t ∧ pyLower t = t ∧
      ∃ w ∈ pySplit (pyLower text), 2 < w.length ∧ t = pyStrip w := by
  refine ⟨rfl, rfl, ?_⟩
  intro text t ht
  by_cases htext : text = ""
  · rw [htext] at ht
    simp [extract_keywords] at ht
  · have hne : (text == "") = false := by
      simpa using htext
    simp only [extract_keywords, hne, Bool.false_eq_true, if_false, List.mem_map,
      List.mem_filter] at ht
    obtain ⟨w, ⟨hwmem, hwlen⟩, rfl⟩ := ht
    have hlow : ∀ c ∈ (pyLower text).data, Char.toLower c = c := by
      intro c hc
      have hc2 : c ∈ text.data.map Char.toLower := hc
      obtain ⟨c0, _, rfl⟩ := List.mem_map.mp hc2
      exact toLower_idem c0
    have hwchars : ∀ c ∈ w.data, Char.toLower c = c :=
      fun c hc => hlow c (pySplit_chars hwmem c hc)
    refine ⟨pyStrip_idem w, ?_, w, hwmem, by simpa using hwlen, rfl⟩
    exact pyLower_eq_self fun c hc => hwchars c (pyStripChars_subset c hc)

/-- C4 witness: instantiating the amended claim at the text `"Hello!"` and
its extracted token `"hello"`. -/
theorem C4_witness :
    pyStrip "hello" = "hello" ∧ pyLower "hello" = "hello" ∧
    ∃ w ∈ pySplit (pyLower "Hello!"), 2 < w.length ∧ "hello" = pyStrip w :=
  C4_extract_keywords_amended.2.2 "Hello!" "hello" (by decide)

/-- C7: for every candidate text, `evaluate_formatting` equals the number of
fixed section names occurring as substrings of the lowercased text, divided
by 4 and multiplied by 100, and its value always lies in
{0, 25, 50, 75, 100}. -/
theorem C7_formatting_quantised (text : String) :
    evaluate_formatting text =
      ((sectionsList.countP fun sec => pyContains (pyLower text) sec : ℕ) : ℝ) / 4 * 100 ∧
    evaluate_formatting text ∈ ({0, 25, 50, 75, 100} : Set ℝ) := by
  have hform : evaluate_formatting text =
      ((sectionsList.countP fun sec => pyContains (pyLower text) sec : ℕ) : ℝ) / 4 * 100 := by
    simp only [evaluate_formatting, sectionsList]
    norm_num
  refine ⟨hform, ?_⟩
  rw [hform]
  have hle : (sectionsList.countP fun sec => pyContains (pyLower text) sec) ≤
      sectionsList.length := List.countP_le_length _
  have hlen4 : sectionsList.length = 4 := rfl
  rw [hlen4] at hle
  set n := sectionsList.countP fun sec => pyContains (pyLower text) sec with hn
  interval_cases n <;> norm_num

/-- C7 witness: the theorem applied at a concrete text containing exactly
two of the four section names. -/
theorem C7_witness :
    evaluate_formatting "My Skills and Education" =
      ((sectionsList.countP fun sec =>
        pyContains (pyLower "My Skills and Education") sec : ℕ) : ℝ) / 4 * 100 ∧
    evaluate_formatting "My Skills and Education" ∈ ({0, 25, 50, 75, 100} : Set ℝ) :=
  C7_formatting_quantised "My Skills and Education"

set_option maxHeartbeats 4000000 in
set_option maxRecDepth 100000 in
/-- C6: `score_resume` equals the clamp to [0, 100] of the sum of the
individual bonuses and penalties described by the spec, and the 650-word
example document (sections, "Python", "Phone", "Email" present, the other
two keywords absent) scores exactly 85. -/
theorem C6_score_resume_closed_form :
    (∀ text : String,
      score_resume text =
        max 0 (min 100
          ((if pyContains text "Work Experience" then (20 : Int) else 0) +
           (if pyContains text "Education" then 20 else 0) +
           (if pyContains text "Skills" then 20 else 0) +
           (if 400 ≤ (pySplit text).length ∧ (pySplit text).length ≤ 800 then 20 else -10) +
           (if pyContains text "Python" then 5 else 0) +
           (if pyContains text "Machine Learning" then 5 else 0) +
           (if pyContains text "Team Leadership" then 5 else 0) +
           (if !pyContains text "Phone" || !pyContains text "Email" then -20 else 0)))) ∧
    score_resume sample650 = 85 ∧
    pyContains sample650 "Work Experience" = true ∧
    pyContains sample650 "Education" = true ∧
    pyContains sample650 "Skills" = true ∧
    (pySplit sample650).length = 650 ∧
    pyContains sample650 "Python" = true ∧
    pyContains sample650 "Phone" = true ∧
    pyContains sample650 "Email" = true ∧
    pyContains sample650 "Machine Learning" = false ∧
    pyContains sample650 "Team Leadership" = false := by
  constructor
  · intro text
    by_cases h1 : pyContains text "Work Experience" = true <;>
    by_cases h2 : pyContains text "Education" = true <;>
    by_cases h3 : pyContains text "Skills" = true <;>
    by_cases h4 : 400 ≤ (pySplit text).length ∧ (pySplit text).length ≤ 800 <;>
    by_cases h5 : pyContains text "Python" = true <;>
    by_cases h6 : pyContains text "Machine Learning" = true <;>
    by_cases h7 : pyContains text "Team Leadership" = true <;>
    by_cases h8 : (!pyContains text "Phone" || !pyContains text "Email") = true <;>
    simp only [score_resume, List.foldl_cons, List.foldl_nil, h1, h2, h3, h4, h5, h6, h7, h8,
      if_true, if_false] <;>
    decide
  · refine ⟨by decide, by decide, by decide, by decide, by decide, by decide, by decide,
      by decide, by decide, by decide⟩

/-- C2: `score_keyword_relevance` returns exactly 0 when the precomputed
keyword list is empty; otherwise it equals the number of lowercased,
whitespace-split candidate words (unstripped) that are members of the
keyword list — each occurrence counted — divided by the keyword-list length
and multiplied by 100; and it is not clamped: a candidate repeating a
keyword can score above 100. -/
theorem C2_keyword_relevance :
    (∀ (svc : ResumeRankingService) (text : String), svc.keyword_list = [] →
      score_keyword_relevance svc text = 0) ∧
    (∀ (svc : ResumeRankingService) (text : String), svc.keyword_list ≠ [] →
      score_keyword_relevance svc text =
        (((pySplit (pyLower text)).countP fun word => svc.keyword_list.contains word : ℕ) : ℝ) /
          (svc.keyword_list.length : ℝ) * 100) ∧
    100 < score_keyword_relevance (mkService (some "abc")) "abc abc" := by
  refine ⟨?_, ?_, ?_⟩
  · intro svc text h
    simp [score_keyword_relevance, h]
  · intro svc text h
    simp [score_keyword_relevance, h]
  · have hsvc : (mkService (some "abc")).keyword_list = ["abc"] := by decide
    have hcount : ((pySplit (pyLower "abc abc")).countP fun word =>
        (["abc"] : List String).contains word) = 2 := by decide
    simp only [score_keyword_relevance, hsvc, hcount]
    norm_num

/-- C2 witness: the empty branch at a service with no job description, and
the formula branch at a two-keyword service. -/
theorem C2_witness :
    (mkService none).keyword_list = [] ∧
    score_keyword_relevance (mkService none) "python" = 0 ∧
    (mkService (some "python developer")).keyword_list ≠ [] ∧
    score_keyword_relevance (mkService (some "python developer")) "python" =
      (((pySplit (pyLower "python")).countP fun word =>
        (mkService (some "python developer")).keyword_list.contains word : ℕ) : ℝ) /
        ((mkService (some "python developer")).keyword_list.length : ℝ) * 100 :=
  ⟨by decide, C2_keyword_relevance.1 _ _ (by decide),
   by decide, C2_keyword_relevance.2.1 _ _ (by decide)⟩

/-- C9 counterexample: ranking the null candidate raises `AttributeError`
(from calling `.lower()` on `None`), which is not the `InvalidInputError`
the claim promises — the repository defines no such exception. -/
theorem C9_counterexample :
    rank_resume_py (mkService none) PyValue.pynone = Except.error PyError.attributeError ∧
    PyError.attributeError ≠ PyError.invalidInputError :=
  ⟨rfl, by decide⟩

/-- C9 (amended): for every null or non-string candidate value, `rank_resume`
propagates an `AttributeError` — raised by the first `.lower()` call on the
non-string — rather than signalling an `InvalidInputError`, and performs no
type check or recovery of its own. -/
theorem C9_nonstring_raises_attribute_error :
    ∀ (svc : ResumeRankingService) (v : PyValue), v.isStr = false →
      rank_resume_py svc v = Except.error PyError.attributeError := by
  intro svc v hv
  cases v with
  | pynone => rfl
  | pystr s => simp [PyValue.isStr] at hv
  | pyint n => rfl

/-- C9 witness: the amended claim applied to the null candidate. -/
theorem C9_witness :
    PyValue.pynone.isStr = false ∧
    rank_resume_py (mkService none) PyValue.pynone = Except.error PyError.attributeError :=
  ⟨by decide, C9_nonstring_raises_attribute_error (mkService none) PyValue.pynone (by decide)⟩

/-- C10: constructing the service with the empty string behaves exactly like
constructing it with no job description: the keyword list is empty, keyword
relevance is 0 for every candidate, content quality is the neutral 50 for
every candidate, and `rank_resume` agrees on every candidate — both the
constructor and the content-quality guard test the reference by truthiness. -/
theorem C10_empty_jd_behaves_like_none :
    (mkService (some "")).keyword_list = [] ∧
    ∀ text : String,
      score_keyword_relevance (mkService (some "")) text = 0 ∧
      score_keyword_relevance (mkService none) text = 0 ∧
      evaluate_content_quality (mkService (some "")) text = Except.ok 50 ∧
      evaluate_content_quality (mkService none) text = Except.ok 50 ∧
      rank_resume (mkService (some "")) text = rank_resume (mkService none) text := by
  refine ⟨rfl, fun text => ⟨?_, ?_, rfl, rfl, rfl⟩⟩
  · simp [score_keyword_relevance, show (mkService (some "")).keyword_list = [] from rfl]
  · simp [score_keyword_relevance, show (mkService none).keyword_list = [] from rfl]

theorem cosine_row_self (row : List ℝ) (hne : row ≠ []) (hpos : ∀ x ∈ row, 0 < x) :
    cosine_similarity (l2normalize row) (l2normalize row) * 100 = 100 := by
  rw [cosine_self_one (dotl_self_pos hne hpos)]
  norm_num

/-- C8: evaluating content quality of a text against itself (service built
with the text as job description, same text as candidate), when the text
has at least one extractable term, yields exactly 100. -/
theorem C8_self_similarity_100 :
    ∀ T : String, sklearnTokenize T ≠ [] →
      evaluate_content_quality (mkService (some T)) T = Except.ok 100 := by
  intro T hT
  have hTne : T ≠ "" := fun h => hT (by rw [h]; rfl)
  have htr : pyTruthy (mkService (some T)).job_description = true := by
    simp [mkService, pyTruthy, hTne]
  unfold evaluate_content_quality
  rw [htr, if_neg (by simp)]
  have hgd : (mkService (some T)).job_description.getD "" = T := rfl
  rw [hgd]
  have hvne : ((sklearnTokenize T ++ sklearnTokenize T).dedup) ≠ [] := by
    rw [Ne, List.dedup_eq_nil]
    simp [hT]
  rw [if_neg hvne]
  refine congrArg Except.ok (cosine_row_self _ ?_ ?_)
  · rw [Ne, List.map_eq_nil_iff]
    exact hvne
  · intro x hx
    obtain ⟨t, ht, rfl⟩ := List.mem_map.mp hx
    have htm : t ∈ sklearnTokenize T := by
      rcases List.mem_append.mp (List.mem_dedup.mp ht) with h | h <;> exact h
    have hcont : (sklearnTokenize T).contains t = true := List.elem_eq_true_of_mem htm
    have hcount : 0 < ((sklearnTokenize T).count t : ℝ) := by
      exact_mod_cast List.count_pos_iff.mpr htm
    simp only [hcont, if_true]
    have hidf : Real.log ((1 + 2) / (1 + (((1 + 1 : ℕ)) : ℝ))) + 1 = 1 := by
      norm_num [Real.log_one]
    rw [hidf]
    simpa using hcount

/-- C8 witness: a concrete text with extractable terms scored against itself. -/
theorem C8_witness :
    evaluate_content_quality (mkService (some "machine learning engineer"))
      "machine learning engineer" = Except.ok 100 :=
  C8_self_similarity_100 "machine learning engineer" (by decide)

theorem cosine_zero_left {u : List ℝ} (h : ∀ x ∈ u, x = 0) (v : List ℝ) :
    cosine_similarity (l2normalize u) v * 100 = 0 := by
  unfold cosine_similarity
  rw [l2normalize_zero h, l2normalize_zero h, dotl_zero_left h]
  ring

theorem cosine_zero_right {v : List ℝ} (h : ∀ x ∈ v, x = 0) (u : List ℝ) :
    cosine_similarity u (l2normalize v) * 100 = 0 := by
  unfold cosine_similarity
  rw [l2normalize_zero h, l2normalize_zero h, dotl_comm, dotl_zero_left h]
  ring

/-- C3 counterexample: with the truthy reference `"a !"` and the candidate
`"b"` both texts have no extractable term, and `evaluate_content_quality`
raises scikit-learn's `ValueError` (empty vocabulary) instead of returning
the claimed guarded 0 — the code contains no explicit guard. -/
theorem C3_counterexample :
    evaluate_content_quality (mkService (some "a !")) "b" = Except.error PyError.valueError ∧
    evaluate_content_quality (mkService (some "a !")) "b" ≠ Except.ok 0 := by
  have h : evaluate_content_quality (mkService (some "a !")) "b" =
      Except.error PyError.valueError := rfl
  exact ⟨h, by rw [h]; simp⟩

/-- C3 (amended): when a reference is present and exactly one of the two
texts has no extractable term, `evaluate_content_quality` returns 0 without
raising; but when both texts have no extractable terms the vectorizer
raises `ValueError` — the division-by-zero edge case is only partly
unreachable and is not pre-empted by any explicit guard. -/
theorem C3_content_quality_empty_term_cases :
    (∀ (svc : ResumeRankingService) (text : String),
      pyTruthy svc.job_description = true →
      (sklearnTokenize text = [] ∧ sklearnTokenize (svc.job_description.getD "") ≠ [] ∨
        sklearnTokenize text ≠ [] ∧ sklearnTokenize (svc.job_description.getD "") = []) →
      evaluate_content_quality svc text = Except.ok 0) ∧
    (∀ (svc : ResumeRankingService) (text : String),
      pyTruthy svc.job_description = true →
      sklearnTokenize text = [] → sklearnTokenize (svc.job_description.getD "") = [] →
      evaluate_content_quality svc text = Except.error PyError.valueError) := by
  constructor
  · intro svc text htr hcase
    unfold evaluate_content_quality
    dsimp only
    rw [htr, if_neg (by simp)]
    rcases hcase with ⟨h0, h1⟩ | ⟨h0, h1⟩
    · rw [h0]
      have hvne : ((([] : List String) ++
          sklearnTokenize (svc.job_description.getD "")).dedup) ≠ [] := by
        rw [Ne, List.dedup_eq_nil]
        simpa using h1
      rw [if_neg hvne]
      refine congrArg Except.ok (cosine_zero_left ?_ _)
      intro x hx
      obtain ⟨t, ht, rfl⟩ := List.mem_map.mp hx
      simp
    · rw [h1]
      have hvne : ((sklearnTokenize text ++ ([] : List String)).dedup) ≠ [] := by
        rw [Ne, List.dedup_eq_nil]
        simpa using h0
      rw [if_neg hvne]
      refine congrArg Except.ok (cosine_zero_right ?_ _)
      intro x hx
      obtain ⟨t, ht, rfl⟩ := List.mem_map.mp hx
      simp
  · intro svc text htr h0 h1
    unfold evaluate_content_quality
    dsimp only
    rw [htr, if_neg (by simp), h0, h1]
    rw [if_pos (by decide)]

/-- C3 witness: the ok-0 branch at a reference with terms and a termless
candidate, and the ValueError branch at two termless texts. -/
theorem C3_witness :
    evaluate_content_quality (mkService (some "hello")) "a" = Except.ok 0 ∧
    evaluate_content_quality (mkService (some "a !")) "b" = Except.error PyError.valueError :=
  ⟨C3_content_quality_empty_term_cases.1 (mkService (some "hello")) "a" (by decide)
      (Or.inl ⟨by decide, by decide⟩),
   C3_content_quality_empty_term_cases.2 (mkService (some "a !")) "b" (by decide)
      (by decide) (by decide)⟩

theorem generate_feedback_spec (s : Scores) :
    (((generate_feedback s).map Prod.fst).contains "keyword_relevance" = true ↔
      s.keyword_relevance < 70) ∧
    (((generate_feedback s).map Prod.fst).contains "formatting" = true ↔
      s.formatting < 80) ∧
    (((generate_feedback s).map Prod.fst).contains "content_quality" = true ↔
      s.content_quality < 75) ∧
    (70 ≤ s.keyword_relevance ∧ 80 ≤ s.formatting ∧ 75 ≤ s.content_quality →
      generate_feedback s = [("overall", overallMsg)]) := by
  by_cases h1 : s.keyword_relevance < 70 <;>
  by_cases h2 : s.formatting < 80 <;>
  by_cases h3 : s.content_quality < 75 <;>
  simp [generate_feedback, h1, h2, h3]

/-- C5: in every successful `rank_resume` result, each per-metric feedback
key is present exactly when its score is strictly below its threshold
(70 for keyword relevance, 80 for formatting, 75 for content quality), each
condition evaluated independently; and when no metric is below threshold
the feedback is exactly the single positive "overall" entry. -/
theorem C5_feedback_iff_thresholds :
    ∀ (svc : ResumeRankingService) (text : String) (r : RankingResult),
      rank_resume svc text = Except.ok r →
      ((r.feedback.map Prod.fst).contains "keyword_relevance" = true ↔
        r.scores.keyword_relevance < 70) ∧
      ((r.feedback.map Prod.fst).contains "formatting" = true ↔
        r.scores.formatting < 80) ∧
      ((r.feedback.map Prod.fst).contains "content_quality" = true ↔
        r.scores.content_quality < 75) ∧
      (70 ≤ r.scores.keyword_relevance ∧ 80 ≤ r.scores.formatting ∧
        75 ≤ r.scores.content_quality →
        r.feedback = [("overall", overallMsg)]) := by
  intro svc text r hr
  unfold rank_resume at hr
  cases hcq : evaluate_content_quality svc text with
  | error e =>
    rw [hcq] at hr
    exact absurd hr (by simp)
  | ok cq =>
    rw [hcq] at hr
    dsimp only at hr
    injection hr with h
    subst h
    exact generate_feedback_spec _

/-- The result of ranking the candidate `"x"` with no job description:
keyword relevance 0, formatting 0, neutral content quality 50, overall 15,
all three advisory feedback entries. -/
noncomputable def sampleRankingResult : RankingResult :=
  { overall_score := 15
    scores := { keyword_relevance := 0, formatting := 0, content_quality := 50 }
    feedback := [("keyword_relevance", keywordRelevanceMsg), ("formatting", formattingMsg),
      ("content_quality", contentQualityMsg)] }

theorem rank_sample_eval : rank_resume (mkService none) "x" = Except.ok sampleRankingResult := by
  have hcq : evaluate_content_quality (mkService none) "x" = Except.ok 50 := rfl
  unfold rank_resume
  rw [hcq]
  dsimp only
  have hkr : score_keyword_relevance (mkService none) "x" = 0 := by
    simp [score_keyword_relevance, show (mkService none).keyword_list = [] from rfl]
  have hfmt : evaluate_formatting "x" = 0 := by
    have hc : (sectionsList.countP fun sec => pyContains (pyLower "x") sec) = 0 := by decide
    simp [evaluate_formatting, hc]
  rw [hkr, hfmt]
  have hfb : generate_feedback
      { keyword_relevance := 0, formatting := 0, content_quality := 50 } =
      [("keyword_relevance", keywordRelevanceMsg), ("formatting", formattingMsg),
        ("content_quality", contentQualityMsg)] := by
    unfold generate_feedback
    norm_num
    intro h
    simp at h
  rw [hfb]
  simp only [sampleRankingResult, Except.ok.injEq, RankingResult.mk.injEq, Scores.mk.injEq]
  norm_num

/-- C5 witness: the theorem applied to the concrete successful ranking of
`"x"` against no job description. -/
theorem C5_witness :
    ((sampleRankingResult.feedback.map Prod.fst).contains "keyword_relevance" = true ↔
      sampleRankingResult.scores.keyword_relevance < 70) ∧
    ((sampleRankingResult.feedback.map Prod.fst).contains "formatting" = true ↔
      sampleRankingResult.scores.formatting < 80) ∧
    ((sampleRankingResult.feedback.map Prod.fst).contains "content_quality" = true ↔
      sampleRankingResult.scores.content_quality < 75) ∧
    (70 ≤ sampleRankingResult.scores.keyword_relevance ∧
      80 ≤ sampleRankingResult.scores.formatting ∧
      75 ≤ sampleRankingResult.scores.content_quality →
      sampleRankingResult.feedback = [("overall", overallMsg)]) :=
  C5_feedback_iff_thresholds (mkService none) "x" sampleRankingResult rank_sample_eval

theorem l2normalize_single_pos {a : ℝ} (ha : 0 < a) : l2normalize [a] = [1] := by
  have hd : dotl [a] [a] = a * a := by simp [dotl]
  unfold l2normalize
  rw [hd, if_neg (mul_pos ha ha).ne', Real.sqrt_mul_self ha.le]
  simp [div_self ha.ne']

theorem cq_overflow_eval :
    evaluate_content_quality (mkService (some "abc")) "abc abc abc abc abc" = Except.ok 100 := by
  have htoks0 : sklearnTokenize "abc abc abc abc abc" = ["abc", "abc", "abc", "abc", "abc"] := by
    decide
  have htoks1 : sklearnTokenize "abc" = ["abc"] := by decide
  have htr : pyTruthy (mkService (some "abc")).job_description = true := by decide
  have hgd : (mkService (some "abc")).job_description.getD "" = "abc" := rfl
  unfold evaluate_content_quality
  dsimp only
  rw [htr, if_neg (by simp), hgd, htoks0, htoks1]
  rw [show ((["abc", "abc", "abc", "abc", "abc"] ++ ["abc"]).dedup) = ["abc"] from by decide]
  rw [if_neg (by decide : ¬(["abc"] = ([] : List String)))]
  simp only [List.map_cons, List.map_nil,
    show (["abc", "abc", "abc", "abc", "abc"] : List String).contains "abc" = true from by decide,
    show (["abc"] : List String).contains "abc" = true from by decide, if_true,
    show List.count "abc" ["abc", "abc", "abc", "abc", "abc"] = 5 from by decide,
    show List.count "abc" (["abc"] : List String) = 1 from by decide]
  have hidf : Real.log ((1 + 2) / (1 + ((1 + 1 : ℕ) : ℝ))) + 1 = 1 := by
    norm_num [Real.log_one]
  rw [hidf]
  rw [show ((5 : ℕ) : ℝ) * 1 = 5 from by norm_num, show ((1 : ℕ) : ℝ) * 1 = 1 from by norm_num]
  rw [l2normalize_single_pos (by norm_num : (0 : ℝ) < 5),
    l2normalize_single_pos (by norm_num : (0 : ℝ) < 1)]
  unfold cosine_similarity
  rw [l2normalize_single_pos (by norm_num : (0 : ℝ) < 1)]
  refine congrArg Except.ok ?_
  simp [dotl]

/-- The result of ranking `"abc abc abc abc abc"` against the job
description `"abc"`: keyword relevance 500, formatting 0, content quality
100, overall 230 — above 100. -/
noncomputable def overflowResult : RankingResult :=
  { overall_score := 230
    scores := { keyword_relevance := 500, formatting := 0, content_quality := 100 }
    feedback := [("formatting", formattingMsg)] }

theorem rank_overflow_eval :
    rank_resume (mkService (some "abc")) "abc abc abc abc abc" = Except.ok overflowResult := by
  unfold rank_resume
  rw [cq_overflow_eval]
  dsimp only
  have hkr : score_keyword_relevance (mkService (some "abc")) "abc abc abc abc abc" = 500 := by
    have hsvc : (mkService (some "abc")).keyword_list = ["abc"] := by decide
    have hcount : ((pySplit (pyLower "abc abc abc abc abc")).countP fun word =>
        (["abc"] : List String).contains word) = 5 := by decide
    simp only [score_keyword_relevance, hsvc, hcount]
    norm_num
  have hfmt : evaluate_formatting "abc abc abc abc abc" = 0 := by
    have hc : (sectionsList.countP fun sec =>
        pyContains (pyLower "abc abc abc abc abc") sec) = 0 := by decide
    simp [evaluate_formatting, hc]
  rw [hkr, hfmt]
  have hfb : generate_feedback
      { keyword_relevance := 500, formatting := 0, content_quality := 100 } =
      [("formatting", formattingMsg)] := by
    unfold generate_feedback
    norm_num
  rw [hfb]
  simp only [overflowResult, Except.ok.injEq, RankingResult.mk.injEq, Scores.mk.injEq]
  norm_num

/-- C1: the overall score of every successful `rank_resume` result is
exactly 0.4·keyword_relevance + 0.3·formatting + 0.3·content_quality of the
per-metric scores it reports, with no clamping; in particular there is an
input whose overall score exceeds 100. -/
theorem C1_overall_weighted_sum :
    (∀ (svc : ResumeRankingService) (text : String) (r : RankingResult),
      rank_resume svc text = Except.ok r →
      r.overall_score = 0.4 * r.scores.keyword_relevance + 0.3 * r.scores.formatting +
        0.3 * r.scores.content_quality) ∧
    (∃ (svc : ResumeRankingService) (text : String) (r : RankingResult),
      rank_resume svc text = Except.ok r ∧ 100 < r.overall_score) := by
  constructor
  · intro svc text r hr
    unfold rank_resume at hr
    cases hcq : evaluate_content_quality svc text with
    | error e =>
      rw [hcq] at hr
      exact absurd hr (by simp)
    | ok cq =>
      rw [hcq] at hr
      dsimp only at hr
      injection hr with h
      subst h
      rfl
  · refine ⟨mkService (some "abc"), "abc abc abc abc abc", overflowResult,
      rank_overflow_eval, ?_⟩
    norm_num [overflowResult]

/-- C1 witness: the weighted-sum identity instantiated at the concrete
ranking of `"x"` with no job description. -/
theorem C1_witness :
    sampleRankingResult.overall_score =
      0.4 * sampleRankingResult.scores.keyword_relevance +
      0.3 * sampleRankingResult.scores.formatting +
      0.3 * sampleRankingResult.scores.content_quality :=
  C1_overall_weighted_sum.1 (mkService none) "x" sampleRankingResult rank_sample_eval

end Artist
